import Mathlib

/-!
Shallow embedding of the e621_python client (`src/main.py`).

The dataclasses (`File`, `Score`, `Tags`, `Flags`, `Relationships`, `Post`,
`Pool`, `Wiki`, `E621Error`) become Lean structures with the same fields in
the same order; Python `str | None` and `int | None` become `Option`.
Python's structural `==` on frozen dataclasses is mirrored by derived
`DecidableEq`.

The `ESix` methods become pure functions.  HTTP transport and JSON decoding
are external collaborators, so each method is parameterised by a fetch
oracle returning an `HttpResp`: the response status together with both
abstract decodings of the body (as an error payload, and as the endpoint's
success payload).  Each method returns the list of observable events it
performs (`Ev.acquire` for `api_limiter`, `Ev.request` for an outbound HTTP
request) paired with an `Except` mirroring return / raise.
-/

namespace E621

/-- `File` dataclass (src/main.py lines 31-43), data fields only. -/
structure File where
  width : Int
  height : Int
  url : Option String
  ext : String
  size : Int
  md5 : String
  has : Bool
deriving DecidableEq, Repr

/-- `Score` dataclass (lines 46-50). -/
structure Score where
  up : Int
  down : Int
  total : Int
deriving DecidableEq, Repr

/-- `Tags` dataclass (lines 88-97): eight tag categories, each a list of tag names. -/
structure Tags where
  general : List String
  species : List String
  character : List String
  copyright : List String
  artist : List String
  invalid : List String
  lore : List String
  meta : List String
deriving DecidableEq, Repr

/-- `Tags.all` property (lines 99-103): chains the eight category lists in source order. -/
def Tags.all (t : Tags) : List String :=
  t.general ++ t.species ++ t.character ++ t.copyright ++ t.artist ++ t.invalid ++ t.lore ++ t.meta

/-- `Flags` dataclass (lines 106-113). -/
structure Flags where
  pending : Bool
  flagged : Bool
  note_locked : Bool
  status_locked : Bool
  rating_locked : Bool
  deleted : Bool
deriving DecidableEq, Repr

/-- `Relationships` dataclass (lines 116-121). -/
structure Relationships where
  parent_id : Option Int
  has_children : Bool
  has_active_children : Bool
  children : List Int
deriving DecidableEq, Repr

/-- `Post` dataclass (lines 124-148), data fields in source order.
`duration : int | float | None` is inert data (never computed on); it is
modelled as `Option ℚ`. -/
structure Post where
  id : Int
  created_at : String
  updated_at : String
  file : File
  preview : File
  sample : File
  score : Score
  tags : Tags
  locked_tags : List String
  change_seq : Int
  flags : Flags
  rating : String
  fav_count : Int
  sources : List String
  pools : List Int
  relationships : Relationships
  approver_id : Option Int
  uploader_id : Int
  description : String
  comment_count : Int
  is_favorited : Bool
  has_notes : Bool
  duration : Option ℚ
deriving DecidableEq, Repr

/-- `Pool` dataclass (lines 184-198). -/
structure Pool where
  id : Int
  name : String
  created_at : String
  updated_at : Option String
  creator_id : Int
  description : String
  is_active : Bool
  category : String
  is_deleted : Bool
  post_ids : List Int
  creator_name : String
  post_count : Int
  posts : List Post
deriving DecidableEq, Repr

/-- `Wiki` dataclass (lines 201-214). -/
structure Wiki where
  id : Int
  created_at : Option String
  updated_at : Option String
  title : Option String
  body : Option String
  creator_id : Option Int
  is_locked : Bool
  updater_id : Option Int
  is_deleted : Bool
  other_names : List String
  creator_name : Option String
  category_name : Int
deriving DecidableEq, Repr

/-- `E621Error` exception dataclass (lines 217-225): `success`, `reason`
(default `None`), `code` (default `None`), `message` (default `""`). -/
structure E621Error where
  success : Bool
  reason : Option String
  code : Option Int
  message : String
deriving DecidableEq, Repr

/-- An HTTP response as the core sees it: the status code plus the two
black-box decodings of the one JSON body that the source applies
(`json.loads(...)` splatted into `E621Error(**...)` when the status is not
200, and the endpoint-specific payload decode on success). -/
structure HttpResp (α : Type) where
  status : Int
  errorBody : E621Error
  payload : α
deriving DecidableEq, Repr

/-- The query a `wiki` call takes: `query: str | int` (line 311). -/
inductive WikiQuery
| str (s : String)
| int (n : Int)
deriving DecidableEq, Repr

/-- Python truthiness of a `str | int` value: `not query` is true exactly
for `""` and `0` (line 313). -/
def WikiQuery.truthy : WikiQuery → Bool
| .str s => s ≠ ""
| .int n => n ≠ 0

/-- One outbound HTTP request, identified by endpoint and the parameters the
source encodes into the URL. -/
inductive Req
| posts (url tagStr : String) (limit page : Int)
| postGet (post_id : Int)
| pools (pool_id : Int)
| poolsByName (query : String)
| wikiPage (q : WikiQuery)
deriving DecidableEq, Repr

/-- Observable events of a method run: a pass through `api_limiter`
(line 247) or an outbound request on the connection pool. -/
inductive Ev
| acquire
| request (r : Req)
deriving DecidableEq, Repr

/-- Errors an `ESix.search` / `ESix.pool` call can raise: the decoded
`E621Error` from a non-200 response, or Python's `ValueError` from
`list.remove` on an absent element (line 278/280). -/
inductive CoreExc
| api (e : E621Error)
| valueError
deriving DecidableEq, Repr

/-- Python `list.remove(a)` (used at lines 278 and 280): drop the first
element structurally equal to `a`; `none` models the `ValueError` raised
when no element matches. -/
def removeFirst : List Post → Post → Option (List Post)
| [], _ => none
| b :: rest, a => if b = a then some rest else (removeFirst rest a).map (fun l => b :: l)

/-- The blacklist test of line 277: `any(item in blacklist for item in post.tags.all)`. -/
def hasBlacklisted (blacklist : List String) (p : Post) : Bool :=
  p.tags.all.any (fun item => blacklist.contains item)

/-- One iteration of the filtering loop body (lines 277-280): remove the
post if blacklisted, then (independently, not `elif`) remove it again if its
total score is `<= score`.  `none` models a raised `ValueError`. -/
def filterStep (blacklist : List String) (score : Int) (p : Post) (current : List Post) :
    Option (List Post) :=
  match (if hasBlacklisted blacklist p then removeFirst current p else some current) with
  | none => none
  | some cur1 => if p.score.total ≤ score then removeFirst cur1 p else some cur1

/-- The filtering loop of lines 276-280: iterate over the snapshot
`list(search_list.posts)` while mutating the live list `current`. -/
def filterLoop (blacklist : List String) (score : Int) : List Post → List Post → Option (List Post)
| [], current => some current
| p :: rest, current =>
  match filterStep blacklist score p current with
  | none => none
  | some cur1 => filterLoop blacklist score rest cur1

/-- The whole filtering pass of `ESix.search`: snapshot and live list start
as the accumulated posts. -/
def runFilter (blacklist : List String) (score : Int) (posts : List Post) : Option (List Post) :=
  filterLoop blacklist score posts posts

/-- The pagination loop of `ESix.search` (lines 266-274): while `limit > 0`,
pass the limiter, issue one page request carrying the *current* value of
`limit` and `page`, abort on a non-200 status with the decoded error body,
otherwise append the page's posts, then do `limit -= 320; page += 1`. -/
def ESix.searchLoop (fetch : Int → Int → HttpResp (List Post)) (url tagStr : String)
    (limit page : Int) : List Ev × Except E621Error (List Post) :=
  if h : 0 < limit then
    let r := fetch limit page
    if r.status ≠ 200 then
      ([Ev.acquire, Ev.request (Req.posts url tagStr limit page)], Except.error r.errorBody)
    else
      let rest := ESix.searchLoop fetch url tagStr (limit - 320) (page + 1)
      (Ev.acquire :: Ev.request (Req.posts url tagStr limit page) :: rest.1,
       rest.2.map (fun ps => r.payload ++ ps))
  else ([], Except.ok [])
termination_by limit.toNat
decreasing_by omega

/-- `ESix.search` (lines 261-281).  `blacklist=None` defaults to the empty
list in the source; callers of the model pass the list directly.  The host
is `e926.net` when `safe` else `e621.net` (line 264); the tag list is joined
with spaces (line 268). -/
def ESix.search (fetch : Int → Int → HttpResp (List Post)) (tags : List String)
    (limit page : Int) (safe : Bool) (blacklist : List String) (score : Int) :
    List Ev × Except CoreExc (List Post) :=
  let url := if safe then "https://e926.net/" else "https://e621.net/"
  let r := ESix.searchLoop fetch url (String.intercalate " " tags) limit page
  (r.1,
   match r.2 with
   | Except.error e => Except.error (CoreExc.api e)
   | Except.ok posts =>
     match runFilter blacklist score posts with
     | none => Except.error CoreExc.valueError
     | some res => Except.ok res)

/-- Inner loop of `ESix.get_pool_images` (lines 287-291), written exactly as
the source's `for p in r.posts: if p.flags.deleted: continue;
if p.id == post: posts.append(p)` — note there is no `break`, so every
matching non-deleted post is appended. -/
def ESix.poolInnerScan : List Post → Int → List Post
| [], _ => []
| p :: ps, pid =>
  if p.flags.deleted then ESix.poolInnerScan ps pid
  else if p.id = pid then p :: ESix.poolInnerScan ps pid
  else ESix.poolInnerScan ps pid

/-- Outer loop of `get_pool_images` over `pool.post_ids`, appending the
inner scan's matches for each id. -/
def ESix.poolOuterScan : List Int → List Post → List Post
| [], _ => []
| pid :: rest, rposts => ESix.poolInnerScan rposts pid ++ ESix.poolOuterScan rest rposts

/-- `ESix.get_pool_images` (lines 283-292): search for `pool:<id>` with
`limit=1280`, `score=-5000` (defaults `page=1`, `safe=False`,
`blacklist=[]`), then run the nested reorder/filter scan. -/
def ESix.get_pool_images (fetch : Int → Int → HttpResp (List Post)) (pool : Pool) :
    List Ev × Except CoreExc (List Post) :=
  let r := ESix.search fetch ["pool:" ++ toString pool.id] 1280 1 false [] (-5000)
  (r.1, r.2.map (fun rposts => ESix.poolOuterScan pool.post_ids rposts))

/-- `ESix.post` (lines 253-259): limiter, one request, raise the decoded
error body on a non-200 status, else decode the post. -/
def ESix.post (fetch : Int → HttpResp Post) (post_id : Int) :
    List Ev × Except E621Error Post :=
  let r := fetch post_id
  if r.status ≠ 200 then
    ([Ev.acquire, Ev.request (Req.postGet post_id)], Except.error r.errorBody)
  else
    ([Ev.acquire, Ev.request (Req.postGet post_id)], Except.ok r.payload)

/-- `ESix.pool` (lines 294-301): NOTE the source issues the pools request
directly, without calling `api_limiter` first.  On success it fills
`pool.posts` via `get_pool_images` (whose own search requests are gated). -/
def ESix.pool (fetchPool : Int → HttpResp Pool)
    (fetchSearch : Int → Int → HttpResp (List Post)) (pool_id : Int) :
    List Ev × Except CoreExc Pool :=
  let r := fetchPool pool_id
  if r.status ≠ 200 then
    ([Ev.request (Req.pools pool_id)], Except.error (CoreExc.api r.errorBody))
  else
    let pool := r.payload
    let imgs := ESix.get_pool_images fetchSearch pool
    (Ev.request (Req.pools pool_id) :: imgs.1,
     imgs.2.map (fun ps => { pool with posts := ps }))

/-- `ESix.pool_search` (lines 303-309): limiter, one request, error on
non-200 else the decoded pool list. -/
def ESix.pool_search (fetch : String → HttpResp (List Pool)) (query : String) :
    List Ev × Except E621Error (List Pool) :=
  let r := fetch query
  if r.status ≠ 200 then
    ([Ev.acquire, Ev.request (Req.poolsByName query)], Except.error r.errorBody)
  else
    ([Ev.acquire, Ev.request (Req.poolsByName query)], Except.ok r.payload)

/-- `ESix.wiki` (lines 311-318): limiter first (line 312), then the falsy
query check raising `E621Error(False, "No Query Provided")` locally before
any request (lines 313-314), then one request with the usual status check. -/
def ESix.wiki (fetch : WikiQuery → HttpResp Wiki) (query : WikiQuery) :
    List Ev × Except E621Error Wiki :=
  if query.truthy = false then
    ([Ev.acquire], Except.error ⟨false, some "No Query Provided", none, ""⟩)
  else
    let r := fetch query
    if r.status ≠ 200 then
      ([Ev.acquire, Ev.request (Req.wikiPage query)], Except.error r.errorBody)
    else
      ([Ev.acquire, Ev.request (Req.wikiPage query)], Except.ok r.payload)

/-- The page requests contained in an event trace, in order. -/
def requestsOf (tr : List Ev) : List Req :=
  tr.filterMap (fun e => match e with | Ev.request r => some r | Ev.acquire => none)

/-- `gatedFrom b tr`: every request in `tr` is preceded by an `acquire`
issued after the previous request; `b` records whether an unconsumed
`acquire` is pending on entry. -/
def gatedFrom : Bool → List Ev → Bool
| _, [] => true
| _, Ev.acquire :: rest => gatedFrom true rest
| b, Ev.request _ :: rest => b && gatedFrom false rest

/-- A trace is gated when every outbound request passes the limiter first. -/
def gated (tr : List Ev) : Bool := gatedFrom false tr

/-- The limiter's minimum spacing: `timedelta(0, 0.5)` at line 249,
measured in the source's time unit (seconds). -/
def minInterval : ℚ := 1/2

/-- One permitted `api_limiter` call, as observed through the wall clock it
reads: `passT` is the `datetime.now()` reading that exited the wait loop
(line 249) and `stampT` the reading stored into `last_search` (line 251). -/
structure AcquireObs where
  passT : ℚ
  stampT : ℚ
deriving DecidableEq, Repr

/-- The sequence of permitted `api_limiter` calls, in the order they held
the lock (the `with self._lock` of line 248 serialises the whole
check-then-stamp body, so the calls form one linear sequence).  Starting
from reference point `last`, a call is permitted only once the clock
reading satisfies the exit condition `last + 0.5 <= now` of line 249; its
stamp reading, taken after the check on a (weakly monotone) clock, becomes
the next reference point. -/
def ValidAcquireSeq : ℚ → List AcquireObs → Prop
| _, [] => True
| last, c :: rest =>
  last + minInterval ≤ c.passT ∧ c.passT ≤ c.stampT ∧ ValidAcquireSeq c.stampT rest

/-! ### Sample data used by concrete witnesses and counterexamples -/

def tags0 : Tags := ⟨[], [], [], [], [], [], [], []⟩

def file0 : File := ⟨0, 0, none, "", 0, "", false⟩

def flags0 : Flags := ⟨false, false, false, false, false, false⟩

def rel0 : Relationships := ⟨none, false, false, []⟩

/-- A baseline post every sample post is a variation of. -/
def post0 : Post :=
  ⟨0, "", "", file0, file0, file0, ⟨0, 0, 0⟩, tags0, [], 0, flags0, "s", 0, [], [], rel0,
   none, 0, "", 0, false, false, none⟩

def e0 : E621Error := ⟨false, none, none, ""⟩

def eNotFound : E621Error := ⟨false, some "not found", some 404, ""⟩

/-- A post carrying the tag "gore" (general category) with a high score. -/
def gorePost : Post :=
  { post0 with id := 1, tags := { tags0 with general := ["gore"] }, score := ⟨5, 0, 5⟩ }

/-- A post that is both blacklisted (species tag "gore") and low-scoring. -/
def doubleBadPost : Post :=
  { post0 with id := 2, tags := { tags0 with species := ["gore"] }, score := ⟨0, 50, -50⟩ }

def p10 : Post := { post0 with id := 10, score := ⟨10, 0, 10⟩ }

def pm10 : Post := { post0 with id := 11, score := ⟨0, 10, -10⟩ }

def pm20 : Post := { post0 with id := 12, score := ⟨0, 20, -20⟩ }

def post3 : Post := { post0 with id := 3 }

/-- A second, distinct post carrying the same id 3. -/
def post3b : Post := { post0 with id := 3, description := "duplicate" }

def post5del : Post := { post0 with id := 5, flags := { flags0 with deleted := true } }

def wiki0 : Wiki := ⟨0, none, none, none, none, none, false, none, false, [], none, 0⟩

def pool0 : Pool := ⟨7, "", "", none, 0, "", true, "", false, [], "", 0, []⟩

def fetchEmpty200 : Int → Int → HttpResp (List Post) := fun _ _ => ⟨200, e0, []⟩

def fetchGore200 : Int → Int → HttpResp (List Post) := fun _ _ => ⟨200, e0, [gorePost]⟩

def fetchBad200 : Int → Int → HttpResp (List Post) := fun _ _ => ⟨200, e0, [doubleBadPost]⟩

def fetch404 : Int → Int → HttpResp (List Post) := fun _ _ => ⟨404, eNotFound, []⟩

def fetchPool404 : Int → HttpResp Pool := fun _ => ⟨404, eNotFound, pool0⟩

def fetchPost404 : Int → HttpResp Post := fun _ => ⟨404, eNotFound, post0⟩

def fetchPools404 : String → HttpResp (List Pool) := fun _ => ⟨404, eNotFound, []⟩

def fetchWiki404 : WikiQuery → HttpResp Wiki := fun _ => ⟨404, eNotFound, wiki0⟩

def fetchWiki200 : WikiQuery → HttpResp Wiki := fun _ => ⟨200, e0, wiki0⟩

/-! ### Helper lemmas about `removeFirst` (Python `list.remove`) -/

theorem removeFirst_eq_none {l : List Post} {a : Post} :
    removeFirst l a = none ↔ a ∉ l := by
  induction l with
  | nil => simp [removeFirst]
  | cons b rest ih =>
    by_cases hba : b = a
    · subst hba; simp [removeFirst]
    · simp [removeFirst, hba, Option.map_eq_none', ih, Ne.symm hba]

theorem removeFirst_cons_self (l : List Post) (a : Post) :
    removeFirst (a :: l) a = some l := by
  simp [removeFirst]

theorem count_removeFirst_self {l l' : List Post} {a : Post}
    (h : removeFirst l a = some l') : l'.count a + 1 = l.count a := by
  induction l generalizing l' with
  | nil => simp [removeFirst] at h
  | cons b rest ih =>
    by_cases hba : b = a
    · subst hba
      rw [removeFirst_cons_self] at h
      cases h
      simp [List.count_cons_self]
    · simp only [removeFirst, if_neg hba, Option.map_eq_some'] at h
      obtain ⟨l'', h'', rfl⟩ := h
      have := ih h''
      simp [List.count_cons, hba, this]

theorem count_removeFirst_ne {l l' : List Post} {a b : Post} (hba : b ≠ a)
    (h : removeFirst l a = some l') : l'.count b = l.count b := by
  induction l generalizing l' with
  | nil => simp [removeFirst] at h
  | cons c rest ih =>
    by_cases hca : c = a
    · subst hca
      rw [removeFirst_cons_self] at h
      cases h
      simp [List.count_cons, Ne.symm hba, hba]
    · simp only [removeFirst, if_neg hca, Option.map_eq_some'] at h
      obtain ⟨l'', h'', rfl⟩ := h
      simp [List.count_cons, ih h'']

theorem removeFirst_append_of_forall_ne {kept : List Post} {a : Post}
    (hk : ∀ k ∈ kept, k ≠ a) (l : List Post) :
    removeFirst (kept ++ l) a = (removeFirst l a).map (fun l' => kept ++ l') := by
  induction kept with
  | nil => simp
  | cons k kept ih =>
    have hka : k ≠ a := hk k (by simp)
    have ih' := ih (fun x hx => hk x (by simp [hx]))
    simp only [List.cons_append, removeFirst, if_neg hka, List.append_eq]
    rw [ih', Option.map_map]
    rfl

/-! ### Core lemmas about the filtering pass of `ESix.search` -/

theorem hasBlacklisted_nil (p : Post) : hasBlacklisted [] p = false := by
  simp [hasBlacklisted]

/-- With the empty blacklist the loop body is just the score check. -/
theorem filterStep_nil_blacklist (sc : Int) (p : Post) (current : List Post) :
    filterStep [] sc p current =
      if p.score.total ≤ sc then removeFirst current p else some current := by
  simp only [filterStep, hasBlacklisted_nil, Bool.false_eq_true, if_false]

/-- A loop iteration on a blacklisted post removes at least one copy of it. -/
theorem filterStep_count_self {bl : List String} {sc : Int} {p : Post}
    {current cur1 : List Post} (hbl : hasBlacklisted bl p = true)
    (h : filterStep bl sc p current = some cur1) :
    cur1.count p + 1 ≤ current.count p := by
  rw [filterStep, hbl] at h
  simp only [if_true] at h
  cases hrem : removeFirst current p with
  | none => rw [hrem] at h; exact absurd h (by simp)
  | some c1 =>
    rw [hrem] at h
    dsimp only at h
    have h1 := count_removeFirst_self hrem
    by_cases hs : p.score.total ≤ sc
    · rw [if_pos hs] at h
      have h2 := count_removeFirst_self h
      omega
    · rw [if_neg hs] at h
      cases h
      omega

/-- A loop iteration on a post different from `p` leaves `p`'s multiplicity
in the live list unchanged. -/
theorem filterStep_count_ne {bl : List String} {sc : Int} {q p : Post}
    {current cur1 : List Post} (hqp : q ≠ p)
    (h : filterStep bl sc q current = some cur1) :
    cur1.count p = current.count p := by
  rw [filterStep] at h
  have hne : p ≠ q := Ne.symm hqp
  cases hb : hasBlacklisted bl q with
  | false =>
    rw [hb] at h
    simp only [Bool.false_eq_true, if_false] at h
    by_cases hs : q.score.total ≤ sc
    · rw [if_pos hs] at h
      exact count_removeFirst_ne hne h
    · rw [if_neg hs] at h
      cases h
      rfl
  | true =>
    rw [hb] at h
    simp only [if_true] at h
    cases hrem : removeFirst current q with
    | none => rw [hrem] at h; exact absurd h (by simp)
    | some c1 =>
      rw [hrem] at h
      dsimp only at h
      have h1 := count_removeFirst_ne hne hrem
      by_cases hs : q.score.total ≤ sc
      · rw [if_pos hs] at h
        rw [count_removeFirst_ne hne h, h1]
      · rw [if_neg hs] at h
        cases h
        exact h1

/-- Count invariant of the whole loop: if the loop finishes without raising
and the live list starts with no more copies of the blacklisted post `p`
than the snapshot still to be processed, no copy of `p` survives. -/
theorem filterLoop_count_blacklisted {bl : List String} {sc : Int} {p : Post}
    (hbl : hasBlacklisted bl p = true) :
    ∀ snapshot current res, filterLoop bl sc snapshot current = some res →
      current.count p ≤ snapshot.count p → res.count p = 0 := by
  intro snapshot
  induction snapshot with
  | nil =>
    intro current res h hc
    simp only [filterLoop, Option.some_inj] at h
    subst h
    simp only [List.count_nil] at hc
    omega
  | cons q rest ih =>
    intro current res h hc
    simp only [filterLoop] at h
    cases hstep : filterStep bl sc q current with
    | none => rw [hstep] at h; exact absurd h (by simp)
    | some cur1 =>
      rw [hstep] at h
      refine ih cur1 res h ?_
      by_cases hqp : q = p
      · subst hqp
        have := filterStep_count_self hbl hstep
        have hcc : (q :: rest).count q = rest.count q + 1 := List.count_cons_self q rest
        omega
      · have := filterStep_count_ne hqp hstep
        have hcc : (q :: rest).count p = rest.count p := by
          simp [List.count_cons, hqp, Ne.symm hqp]
        omega

/-- If a post occurs exactly once in the snapshot, is blacklisted and
low-scoring, the loop's second `remove` on it raises: the iteration on that
occurrence returns `none`. -/
theorem filterStep_none_double {bl : List String} {sc : Int} {p : Post}
    {current : List Post} (hbl : hasBlacklisted bl p = true)
    (hsc : p.score.total ≤ sc) (hcount : current.count p ≤ 1) :
    filterStep bl sc p current = none := by
  rw [filterStep, hbl]
  simp only [if_true]
  cases hrem : removeFirst current p with
  | none => rfl
  | some c1 =>
    have h1 := count_removeFirst_self hrem
    have h0 : c1.count p = 0 := by omega
    dsimp only
    rw [if_pos hsc]
    exact removeFirst_eq_none.mpr (List.count_eq_zero.mp h0)

/-- The whole loop raises (`none`) whenever some post occurring exactly once
in the snapshot is both blacklisted and at-or-below the score threshold. -/
theorem filterLoop_none_double {bl : List String} {sc : Int} {p : Post}
    (hbl : hasBlacklisted bl p = true) (hsc : p.score.total ≤ sc) :
    ∀ snapshot current, p ∈ snapshot → snapshot.count p = 1 →
      current.count p ≤ snapshot.count p →
      filterLoop bl sc snapshot current = none := by
  intro snapshot
  induction snapshot with
  | nil => intro current hmem; exact absurd hmem (List.not_mem_nil p)
  | cons q rest ih =>
    intro current hmem hone hc
    by_cases hqp : q = p
    · subst hqp
      have hcur : current.count q ≤ 1 := by omega
      simp only [filterLoop, filterStep_none_double hbl hsc hcur]
    · have hcc : (q :: rest).count p = rest.count p := by
        simp [List.count_cons, hqp, Ne.symm hqp]
      have hmem' : p ∈ rest := by
        cases hmem with
        | head => exact absurd rfl hqp
        | tail _ h => exact h
      simp only [filterLoop]
      cases hstep : filterStep bl sc q current with
      | none => rfl
      | some cur1 =>
        have := filterStep_count_ne hqp hstep
        exact ih cur1 hmem' (by omega) (by omega)

/-- With the empty blacklist the loop is an exact score filter: processing
the remaining snapshot against a live list that starts with an
already-retained prefix `kept` (all above the threshold) keeps exactly the
above-threshold posts, in order. -/
theorem filterLoop_nil_blacklist (sc : Int) :
    ∀ (snapshot kept : List Post), (∀ k ∈ kept, ¬ k.score.total ≤ sc) →
      filterLoop [] sc snapshot (kept ++ snapshot) =
        some (kept ++ snapshot.filter (fun p => decide (sc < p.score.total))) := by
  intro snapshot
  induction snapshot with
  | nil => intro kept _; simp [filterLoop]
  | cons p rest ih =>
    intro kept hkept
    by_cases hp : p.score.total ≤ sc
    · have hkp : ∀ k ∈ kept, k ≠ p := by
        intro k hk hkp
        exact hkept k hk (hkp ▸ hp)
      have hstep : filterStep [] sc p (kept ++ p :: rest) = some (kept ++ rest) := by
        rw [filterStep_nil_blacklist, if_pos hp,
          removeFirst_append_of_forall_ne hkp, removeFirst_cons_self]
        rfl
      simp only [filterLoop, hstep, ih kept hkept]
      have : decide (sc < p.score.total) = false := by
        simp only [decide_eq_false_iff_not, not_lt]
        omega
      rw [List.filter_cons_of_neg (by simp [this])]
    · have hstep : filterStep [] sc p (kept ++ p :: rest) = some (kept ++ p :: rest) := by
        rw [filterStep_nil_blacklist, if_neg hp]
      have hkept' : ∀ k ∈ kept ++ [p], ¬ k.score.total ≤ sc := by
        intro k hk
        rcases List.mem_append.mp hk with h | h
        · exact hkept k h
        · rw [List.mem_singleton.mp h]; exact hp
      have heq : kept ++ p :: rest = (kept ++ [p]) ++ rest := by simp
      simp only [filterLoop, hstep]
      rw [heq, ih (kept ++ [p]) hkept']
      have : decide (sc < p.score.total) = true := by
        simp only [decide_eq_true_eq]
        omega
      rw [List.filter_cons_of_pos (by simp [this])]
      simp

/-- The filtering pass of `ESix.search` with the (default) empty blacklist
never raises and keeps exactly the posts strictly above the threshold. -/
theorem runFilter_nil_blacklist (sc : Int) (posts : List Post) :
    runFilter [] sc posts =
      some (posts.filter (fun p => decide (sc < p.score.total))) := by
  have := filterLoop_nil_blacklist sc posts [] (by intro k hk; exact absurd hk (List.not_mem_nil k))
  simpa [runFilter] using this

/-! ### Lemmas about the pagination loop of `ESix.search` -/

theorem searchLoop_nonpos (fetch : Int → Int → HttpResp (List Post)) (u t : String)
    {L : Int} (P : Int) (h : L ≤ 0) :
    ESix.searchLoop fetch u t L P = ([], Except.ok []) := by
  unfold ESix.searchLoop
  rw [dif_neg (by omega)]

theorem searchLoop_one_page (fetch : Int → Int → HttpResp (List Post)) (u t : String)
    {L : Int} (P : Int) (h1 : 0 < L) (h2 : L ≤ 320) (h3 : (fetch L P).status = 200) :
    ESix.searchLoop fetch u t L P =
      ([Ev.acquire, Ev.request (Req.posts u t L P)], Except.ok (fetch L P).payload) := by
  unfold ESix.searchLoop
  rw [dif_pos h1, if_neg (by simp [h3])]
  dsimp only
  rw [searchLoop_nonpos fetch u t (P + 1) (by omega)]
  simp [Except.map]

theorem requestsOf_page_cons (u t : String) (L P : Int) (tr : List Ev) :
    requestsOf (Ev.acquire :: Ev.request (Req.posts u t L P) :: tr) =
      Req.posts u t L P :: requestsOf tr := by
  simp [requestsOf]

/-- Fuel-bounded form of the pagination-trace characterisation: on an
all-success fetch the loop issues `⌈L/320⌉` page requests, the `i`-th
carrying the decremented remainder `L - 320 i` as the `limit` parameter and
`P + i` as the page. -/
theorem searchLoop_requests_aux (fetch : Int → Int → HttpResp (List Post)) (u t : String)
    (h200 : ∀ l p, (fetch l p).status = 200) :
    ∀ (n : Nat) (L P : Int), L.toNat ≤ n → 0 < L →
      requestsOf (ESix.searchLoop fetch u t L P).1 =
        (List.range ((L + 319) / 320).toNat).map
          (fun i : Nat => Req.posts u t (L - 320 * (i : Int)) (P + (i : Int))) := by
  intro n
  induction n with
  | zero => intro L P hle hpos; omega
  | succ n ih =>
    intro L P hle hpos
    unfold ESix.searchLoop
    rw [dif_pos hpos, if_neg (by simp [h200 L P])]
    dsimp only
    rw [requestsOf_page_cons]
    by_cases hsmall : L ≤ 320
    · rw [searchLoop_nonpos fetch u t (P + 1) (by omega)]
      have hk : ((L + 319) / 320).toNat = 1 := by omega
      rw [hk]
      have : List.range 1 = [0] := rfl
      rw [this]
      norm_num [requestsOf]
    · have hk : ((L + 319) / 320).toNat = ((L - 320 + 319) / 320).toNat + 1 := by omega
      rw [ih (L - 320) (P + 1) (by omega) (by omega), hk, List.range_succ_eq_map,
        List.map_cons, List.map_map]
      have : ∀ i ∈ List.range ((L - 320 + 319) / 320).toNat,
          ((fun i : Nat => Req.posts u t (L - 320 * (i : Int)) (P + (i : Int))) ∘ Nat.succ) i =
            (fun i : Nat => Req.posts u t (L - 320 - 320 * (i : Int)) ((P + 1) + (i : Int))) i := by
        intro i _
        simp only [Function.comp]
        push_cast
        congr 1 <;> ring
      rw [List.map_congr_left this]
      norm_num

/-- The pagination-trace characterisation, with the fuel bound discharged. -/
theorem searchLoop_requests (fetch : Int → Int → HttpResp (List Post)) (u t : String)
    (h200 : ∀ l p, (fetch l p).status = 200) (L P : Int) (hpos : 0 < L) :
    requestsOf (ESix.searchLoop fetch u t L P).1 =
      (List.range ((L + 319) / 320).toNat).map
        (fun i : Nat => Req.posts u t (L - 320 * (i : Int)) (P + (i : Int))) :=
  searchLoop_requests_aux fetch u t h200 L.toNat L P le_rfl hpos

/-- A non-200 status on the first page that the loop reaches after `i`
successful pages aborts the loop with that page's decoded error body. -/
theorem searchLoop_error_at (fetch : Int → Int → HttpResp (List Post)) (u t : String) :
    ∀ (i : Nat) (L P : Int),
      (∀ j : Nat, j < i → (fetch (L - 320 * (j : Int)) (P + (j : Int))).status = 200) →
      0 < L - 320 * (i : Int) →
      (fetch (L - 320 * (i : Int)) (P + (i : Int))).status ≠ 200 →
      (ESix.searchLoop fetch u t L P).2 =
        Except.error (fetch (L - 320 * (i : Int)) (P + (i : Int))).errorBody := by
  intro i
  induction i with
  | zero =>
    intro L P h200 hrange hbad
    simp only [Nat.cast_zero, mul_zero, sub_zero, add_zero] at hrange hbad ⊢
    unfold ESix.searchLoop
    rw [dif_pos hrange, if_pos hbad]
  | succ i ih =>
    intro L P h200 hrange hbad
    have hposL : 0 < L := by
      push_cast at hrange
      omega
    have h0 : (fetch L P).status = 200 := by
      have := h200 0 (by omega)
      simpa using this
    unfold ESix.searchLoop
    rw [dif_pos hposL, if_neg (by simp [h0])]
    dsimp only
    have harg1 : L - 320 * ((i : Int) + 1) = (L - 320) - 320 * (i : Int) := by ring
    have harg2 : P + ((i : Int) + 1) = (P + 1) + (i : Int) := by ring
    push_cast at hrange hbad ⊢
    rw [harg1] at hrange
    rw [harg1, harg2] at hbad
    rw [harg1, harg2]
    have h200' : ∀ j : Nat, j < i →
        (fetch ((L - 320) - 320 * (j : Int)) ((P + 1) + (j : Int))).status = 200 := by
      intro j hj
      have := h200 (j + 1) (by omega)
      have e1 : L - 320 * ((j : Int) + 1) = (L - 320) - 320 * (j : Int) := by ring
      have e2 : P + ((j : Int) + 1) = (P + 1) + (j : Int) := by ring
      push_cast at this
      rw [e1, e2] at this
      exact this
    rw [ih (L - 320) (P + 1) h200' hrange hbad]
    rfl

theorem searchLoop_gatedFrom_aux (fetch : Int → Int → HttpResp (List Post)) (u t : String) :
    ∀ (n : Nat) (L P : Int), L.toNat ≤ n → ∀ b : Bool,
      gatedFrom b (ESix.searchLoop fetch u t L P).1 = true := by
  intro n
  induction n with
  | zero =>
    intro L P hle b
    rw [searchLoop_nonpos fetch u t P (by omega)]
    rfl
  | succ n ih =>
    intro L P hle b
    by_cases hpos : 0 < L
    · unfold ESix.searchLoop
      rw [dif_pos hpos]
      by_cases hs : (fetch L P).status ≠ 200
      · rw [if_pos hs]
        rfl
      · rw [if_neg hs]
        dsimp only
        simp only [gatedFrom, Bool.true_and]
        exact ih (L - 320) (P + 1) (by omega) false
    · rw [searchLoop_nonpos fetch u t P (by omega)]
      rfl

theorem searchLoop_gated (fetch : Int → Int → HttpResp (List Post)) (u t : String)
    (L P : Int) : gated (ESix.searchLoop fetch u t L P).1 = true :=
  searchLoop_gatedFrom_aux fetch u t L.toNat L P le_rfl false

/-- `ESix.search` unfolded: same trace as its pagination loop, result piped
through the filtering pass. -/
theorem search_eq (fetch : Int → Int → HttpResp (List Post)) (tags : List String)
    (L P : Int) (safe : Bool) (bl : List String) (sc : Int) :
    ESix.search fetch tags L P safe bl sc =
      ((ESix.searchLoop fetch (if safe then "https://e926.net/" else "https://e621.net/")
          (String.intercalate " " tags) L P).1,
       match (ESix.searchLoop fetch (if safe then "https://e926.net/" else "https://e621.net/")
          (String.intercalate " " tags) L P).2 with
       | Except.error e => Except.error (CoreExc.api e)
       | Except.ok posts =>
         match runFilter bl sc posts with
         | none => Except.error CoreExc.valueError
         | some res => Except.ok res) := rfl


/-! ### Lemmas about the pool reorder scan -/

theorem poolInnerScan_eq_filter (rposts : List Post) (pid : Int) :
    ESix.poolInnerScan rposts pid =
      rposts.filter (fun p => !p.flags.deleted && decide (p.id = pid)) := by
  induction rposts with
  | nil => rfl
  | cons p ps ih =>
    cases hd : p.flags.deleted with
    | true => simp [ESix.poolInnerScan, hd, ih, List.filter_cons]
    | false =>
      by_cases hid : p.id = pid
      · simp [ESix.poolInnerScan, hd, hid, ih, List.filter_cons]
      · simp [ESix.poolInnerScan, hd, hid, ih, List.filter_cons]

theorem poolOuterScan_eq_flatMap (ids : List Int) (rposts : List Post) :
    ESix.poolOuterScan ids rposts =
      ids.flatMap (fun pid => rposts.filter (fun p => !p.flags.deleted && decide (p.id = pid))) := by
  induction ids with
  | nil => rfl
  | cons pid rest ih =>
    simp [ESix.poolOuterScan, poolInnerScan_eq_filter, ih]

/-! ### Helpers to run `ESix.search` on concrete oracles -/

/-- When the pagination loop succeeds, `ESix.search`'s result is the
filtering pass applied to the accumulated posts. -/
theorem search_result_of_loop (fetch : Int → Int → HttpResp (List Post)) (tags : List String)
    (L P : Int) (safe : Bool) (bl : List String) (sc : Int) (posts : List Post)
    (hl : (ESix.searchLoop fetch (if safe then "https://e926.net/" else "https://e621.net/")
        (String.intercalate " " tags) L P).2 = Except.ok posts) :
    (ESix.search fetch tags L P safe bl sc).2 =
      (match runFilter bl sc posts with
       | none => Except.error CoreExc.valueError
       | some res => Except.ok res) := by
  rw [search_eq]
  dsimp only
  rw [hl]

theorem search_gated (fetch : Int → Int → HttpResp (List Post)) (tags : List String)
    (L P : Int) (safe : Bool) (bl : List String) (sc : Int) :
    gated (ESix.search fetch tags L P safe bl sc).1 = true := by
  rw [search_eq]
  exact searchLoop_gated fetch _ _ L P

theorem get_pool_images_gated (fetch : Int → Int → HttpResp (List Post)) (pl : Pool) :
    gated (ESix.get_pool_images fetch pl).1 = true := by
  unfold ESix.get_pool_images
  exact search_gated fetch _ 1280 1 false [] (-5000)

/-- A two-call limiter trace used as a concrete witness. -/
def acqTrace2 : List AcquireObs := [⟨1/2, 1/2⟩, ⟨1, 1⟩]


/-! ### Claim theorems -/

/-- C1, counterexample: with `limit = 500` (all pages successful) the loop
does issue 2 page calls, but the second one requests `limit = 180` — the
shrinking remainder — so the calls are not both for `limit = 500` as the
claim states. -/
theorem c1_counterexample :
    requestsOf (ESix.searchLoop fetchEmpty200 "https://e621.net/" "" 500 1).1 =
      [Req.posts "https://e621.net/" "" 500 1, Req.posts "https://e621.net/" "" 180 2] ∧
    requestsOf (ESix.searchLoop fetchEmpty200 "https://e621.net/" "" 500 1).1 ≠
      [Req.posts "https://e621.net/" "" 500 1, Req.posts "https://e621.net/" "" 500 2] := by
  have h := searchLoop_requests fetchEmpty200 "https://e621.net/" ""
    (fun _ _ => rfl) 500 1 (by norm_num)
  rw [h]
  exact ⟨by decide, by decide⟩

/-- C1, amended: for every call to `search` with `limit > 0` whose pages all
return status 200, the pagination loop issues exactly `⌈limit/320⌉` page
calls at consecutive pages `page, page+1, ...`, and the `i`-th call encodes
the current shrinking remainder `limit - 320·i` (not the caller's original
`limit`) as the `limit` query parameter; for `limit = 500` this is 2 calls
requesting `limit = 500` and `limit = 180`. -/
theorem c1_pagination_shrinking_limit (fetch : Int → Int → HttpResp (List Post))
    (tags : List String) (L P : Int) (safe : Bool) (bl : List String) (sc : Int)
    (h200 : ∀ l p, (fetch l p).status = 200) (hpos : 0 < L) :
    requestsOf (ESix.search fetch tags L P safe bl sc).1 =
      (List.range ((L + 319) / 320).toNat).map
        (fun i : Nat =>
          Req.posts (if safe then "https://e926.net/" else "https://e621.net/")
            (String.intercalate " " tags) (L - 320 * (i : Int)) (P + (i : Int))) := by
  rw [search_eq]
  exact searchLoop_requests fetch _ _ h200 L P hpos

/-- C1, witness: the amended claim applied to a concrete all-success fetch
with `limit = 500`, `page = 1`. -/
theorem c1_pagination_shrinking_limit_witness :
    (∀ l p : Int, (fetchEmpty200 l p).status = 200) ∧ ((0 : Int) < 500) ∧
    requestsOf (ESix.search fetchEmpty200 ["cat"] 500 1 false [] (-10)).1 =
      [Req.posts "https://e621.net/" "cat" 500 1, Req.posts "https://e621.net/" "cat" 180 2] :=
  ⟨fun _ _ => rfl, by norm_num,
    (c1_pagination_shrinking_limit fetchEmpty200 ["cat"] 500 1 false [] (-10)
      (fun _ _ => rfl) (by norm_num)).trans (by decide)⟩

/-- C2, counterexample: `ESix.pool` reaches the network without first
passing the rate limiter — its pool-metadata request is the first event of
its trace, with no `acquire` before it, so the trace is not gated. -/
theorem c2_counterexample :
    (ESix.pool fetchPool404 fetchEmpty200 3).1 = [Ev.request (Req.pools 3)] ∧
    gated (ESix.pool fetchPool404 fetchEmpty200 3).1 = false := by
  exact ⟨rfl, rfl⟩

/-- C2, amended: `post`, `search`, `get_pool_images`, `pool_search` and
`wiki` all pass the rate limiter before every outbound request, but `pool`
issues its pool-metadata request ungated: its trace starts with a raw
request (only the subsequent `get_pool_images` requests are gated). -/
theorem c2_limiter_gating :
    (∀ (fetch : Int → HttpResp Post) (pid : Int), gated (ESix.post fetch pid).1 = true) ∧
    (∀ (fetch : Int → Int → HttpResp (List Post)) (tags : List String) (L P : Int)
       (safe : Bool) (bl : List String) (sc : Int),
       gated (ESix.search fetch tags L P safe bl sc).1 = true) ∧
    (∀ (fetch : Int → Int → HttpResp (List Post)) (pl : Pool),
       gated (ESix.get_pool_images fetch pl).1 = true) ∧
    (∀ (fetch : String → HttpResp (List Pool)) (q : String),
       gated (ESix.pool_search fetch q).1 = true) ∧
    (∀ (fetch : WikiQuery → HttpResp Wiki) (q : WikiQuery),
       gated (ESix.wiki fetch q).1 = true) ∧
    (∀ (fp : Int → HttpResp Pool) (fs : Int → Int → HttpResp (List Post)) (pid : Int),
       ∃ tr, (ESix.pool fp fs pid).1 = Ev.request (Req.pools pid) :: tr ∧ gated tr = true) := by
  refine ⟨?_, ?_, ?_, ?_, ?_, ?_⟩
  · intro fetch pid
    unfold ESix.post
    by_cases h : (fetch pid).status ≠ 200
    · rw [if_pos h]
      rfl
    · rw [if_neg h]
      rfl
  · exact search_gated
  · exact get_pool_images_gated
  · intro fetch q
    unfold ESix.pool_search
    by_cases h : (fetch q).status ≠ 200
    · rw [if_pos h]
      rfl
    · rw [if_neg h]
      rfl
  · intro fetch q
    unfold ESix.wiki
    by_cases h : q.truthy = false
    · rw [if_pos h]
      rfl
    · rw [if_neg h]
      by_cases h2 : (fetch q).status ≠ 200
      · rw [if_pos h2]
        rfl
      · rw [if_neg h2]
        rfl
  · intro fp fs pid
    unfold ESix.pool
    by_cases h : (fp pid).status ≠ 200
    · rw [if_pos h]
      exact ⟨[], rfl, rfl⟩
    · rw [if_neg h]
      refine ⟨(ESix.get_pool_images fs (fp pid).payload).1, rfl, ?_⟩
      exact get_pool_images_gated fs (fp pid).payload

/-- C3: along any valid sequence of permitted `api_limiter` calls (in
lock-acquisition order, with the clock weakly monotone within a call), each
permitted call's exit time is at least `minInterval` after the previous
permitted call's recorded timestamp, hence also at least `minInterval` —
and in particular strictly — after the previous call's own exit time, so
permits occur in order, spaced by at least the minimum interval. -/
theorem c3_rate_limiter_spacing (last0 : ℚ) (tr : List AcquireObs)
    (hv : ValidAcquireSeq last0 tr) (i : Nat) (hi : i + 1 < tr.length) :
    (tr.get ⟨i, by omega⟩).stampT + minInterval ≤ (tr.get ⟨i + 1, hi⟩).passT ∧
    (tr.get ⟨i, by omega⟩).passT + minInterval ≤ (tr.get ⟨i + 1, hi⟩).passT ∧
    (tr.get ⟨i, by omega⟩).passT < (tr.get ⟨i + 1, hi⟩).passT := by
  induction tr generalizing last0 i with
  | nil => simp at hi
  | cons c rest ih =>
    obtain ⟨h1, h2, h3⟩ := hv
    cases i with
    | zero =>
      cases rest with
      | nil => simp at hi
      | cons c2 rest2 =>
        obtain ⟨h4, h5, h6⟩ := h3
        have hmi : (0 : ℚ) < minInterval := by norm_num [minInterval]
        refine ⟨h4, ?_, ?_⟩
        · show c.passT + minInterval ≤ c2.passT
          linarith
        · show c.passT < c2.passT
          linarith
    | succ i =>
      have hi2 : i + 1 < rest.length := by
        simpa using hi
      exact ih c.stampT h3 i hi2

/-- C3, witness: a concrete valid two-call trace starting from reference
point 0, with the spacing conclusions at the only consecutive pair. -/
theorem c3_rate_limiter_spacing_witness :
    ValidAcquireSeq 0 acqTrace2 ∧ 0 + 1 < acqTrace2.length ∧
    ((acqTrace2.get ⟨0, by norm_num [acqTrace2]⟩).stampT + minInterval ≤
        (acqTrace2.get ⟨1, by norm_num [acqTrace2]⟩).passT ∧
      (acqTrace2.get ⟨0, by norm_num [acqTrace2]⟩).passT + minInterval ≤
        (acqTrace2.get ⟨1, by norm_num [acqTrace2]⟩).passT ∧
      (acqTrace2.get ⟨0, by norm_num [acqTrace2]⟩).passT <
        (acqTrace2.get ⟨1, by norm_num [acqTrace2]⟩).passT) := by
  have hv : ValidAcquireSeq 0 acqTrace2 := by
    norm_num [ValidAcquireSeq, acqTrace2, minInterval]
  exact ⟨hv, by norm_num [acqTrace2],
    c3_rate_limiter_spacing 0 acqTrace2 hv 0 (by norm_num [acqTrace2])⟩


/-- C4, counterexample: for `post_ids = [3]` and a search result holding two
distinct non-deleted posts with id 3, the scan appends both matches — not
only the first non-deleted matching post, as the claim states. -/
theorem c4_counterexample :
    ESix.poolOuterScan [3] [post3, post3b] = [post3, post3b] ∧
    ESix.poolOuterScan [3] [post3, post3b] ≠ [post3] := ⟨by decide, by decide⟩

/-- C4, amended: for every pool and every search result, the
`get_pool_images` scan returns posts ordered by `post_ids`, appending for
each id, in search-result order, *every* non-deleted matching post (which
coincides with the first match only when each id matches at most one
non-deleted post) and silently omitting ids that are missing or whose posts
are flagged deleted; in particular `post_ids = [5, 3, 9]` against a result
holding non-deleted post 3 and deleted post 5 yields exactly `[3]`. -/
theorem c4_pool_scan_appends_all_matches :
    (∀ (ids : List Int) (rposts : List Post),
      ESix.poolOuterScan ids rposts =
        ids.flatMap (fun pid =>
          rposts.filter (fun p => !p.flags.deleted && decide (p.id = pid)))) ∧
    ESix.poolOuterScan [5, 3, 9] [post3, post5del] = [post3] :=
  ⟨poolOuterScan_eq_flatMap, by decide⟩

/-- C5: any post carrying a blacklisted tag in any category is absent from a
successfully returned `search` result, whatever its score. -/
theorem c5_blacklist_excluded (fetch : Int → Int → HttpResp (List Post)) (tags : List String)
    (L P : Int) (safe : Bool) (bl : List String) (sc : Int) (res : List Post) (p : Post)
    (hok : (ESix.search fetch tags L P safe bl sc).2 = Except.ok res)
    (hbl : hasBlacklisted bl p = true) :
    p ∉ res := by
  rw [search_eq] at hok
  dsimp only at hok
  cases hl : (ESix.searchLoop fetch (if safe then "https://e926.net/" else "https://e621.net/")
      (String.intercalate " " tags) L P).2 with
  | error e =>
    rw [hl] at hok
    exact absurd hok (by simp)
  | ok posts =>
    rw [hl] at hok
    dsimp only at hok
    cases hf : runFilter bl sc posts with
    | none =>
      rw [hf] at hok
      exact absurd hok (by simp)
    | some res2 =>
      rw [hf] at hok
      dsimp only at hok
      have hres : res2 = res := by
        injection hok
      subst hres
      have h0 := filterLoop_count_blacklisted hbl posts posts res2 hf le_rfl
      exact List.count_eq_zero.mp h0

/-- C5, witness: a concrete search whose one accumulated post carries the
blacklisted tag "gore"; the returned sequence is empty and excludes it. -/
theorem c5_blacklist_excluded_witness :
    (ESix.search fetchGore200 ["cat"] 300 1 false ["gore"] (-10)).2 = Except.ok [] ∧
    hasBlacklisted ["gore"] gorePost = true ∧
    gorePost ∉ ([] : List Post) := by
  have hl : (ESix.searchLoop fetchGore200
      (if false then "https://e926.net/" else "https://e621.net/")
      (String.intercalate " " ["cat"]) 300 1).2 = Except.ok [gorePost] := by
    rw [searchLoop_one_page fetchGore200 _ _ 1 (by norm_num) (by norm_num) rfl]
    rfl
  have hok : (ESix.search fetchGore200 ["cat"] 300 1 false ["gore"] (-10)).2 = Except.ok [] :=
    (search_result_of_loop fetchGore200 ["cat"] 300 1 false ["gore"] (-10) [gorePost] hl).trans
      rfl
  exact ⟨hok, rfl,
    c5_blacklist_excluded fetchGore200 ["cat"] 300 1 false ["gore"] (-10) [] gorePost hok rfl⟩

/-- C6: with the (default) empty blacklist, the filtering pass of `search`
drops exactly the accumulated posts whose total score is `<=` the threshold
and keeps the rest in arrival order; for accumulated scores
`[10, -10, -20]` with threshold `-10` only the score-10 post survives. -/
theorem c6_score_filter_exact :
    (∀ (sc : Int) (posts : List Post),
      runFilter [] sc posts = some (posts.filter (fun p => decide (sc < p.score.total)))) ∧
    runFilter [] (-10) [p10, pm10, pm20] = some [p10] :=
  ⟨runFilter_nil_blacklist, by decide⟩

/-- C7: every operation that receives a non-success status raises the
decoded error body (`success`, `reason`, `code`, `message`) and never
reaches its success path; for `search`, a non-200 on the first failing page
(any position `i` in the pagination loop) aborts the whole call with that
page's `E621Error`, discarding the pages already accumulated. -/
theorem c7_non_success_raises :
    (∀ (fetch : Int → HttpResp Post) (pid : Int), (fetch pid).status ≠ 200 →
      (ESix.post fetch pid).2 = Except.error (fetch pid).errorBody) ∧
    (∀ (fetch : String → HttpResp (List Pool)) (q : String), (fetch q).status ≠ 200 →
      (ESix.pool_search fetch q).2 = Except.error (fetch q).errorBody) ∧
    (∀ (fetch : WikiQuery → HttpResp Wiki) (q : WikiQuery), q.truthy = true →
      (fetch q).status ≠ 200 →
      (ESix.wiki fetch q).2 = Except.error (fetch q).errorBody) ∧
    (∀ (fp : Int → HttpResp Pool) (fs : Int → Int → HttpResp (List Post)) (pid : Int),
      (fp pid).status ≠ 200 →
      (ESix.pool fp fs pid).2 = Except.error (CoreExc.api (fp pid).errorBody)) ∧
    (∀ (fetch : Int → Int → HttpResp (List Post)) (tags : List String) (L P : Int)
       (safe : Bool) (bl : List String) (sc : Int) (i : Nat),
      (∀ j : Nat, j < i → (fetch (L - 320 * (j : Int)) (P + (j : Int))).status = 200) →
      0 < L - 320 * (i : Int) →
      (fetch (L - 320 * (i : Int)) (P + (i : Int))).status ≠ 200 →
      (ESix.search fetch tags L P safe bl sc).2 =
        Except.error (CoreExc.api (fetch (L - 320 * (i : Int)) (P + (i : Int))).errorBody)) := by
  refine ⟨?_, ?_, ?_, ?_, ?_⟩
  · intro fetch pid h
    unfold ESix.post
    rw [if_pos h]
  · intro fetch q h
    unfold ESix.pool_search
    rw [if_pos h]
  · intro fetch q hq h
    unfold ESix.wiki
    rw [if_neg (by simp [hq]), if_pos h]
  · intro fp fs pid h
    unfold ESix.pool
    rw [if_pos h]
  · intro fetch tags L P safe bl sc i h200 hrange hbad
    rw [search_eq]
    dsimp only
    rw [searchLoop_error_at fetch _ _ i L P h200 hrange hbad]

/-- C7, witness: each conjunct applied to a concrete 404 response carrying
error body `eNotFound`; for `search` the failure is at page index 0 of a
`limit = 100` call. -/
theorem c7_non_success_raises_witness :
    ((fetchPost404 7).status ≠ 200 ∧
      (ESix.post fetchPost404 7).2 = Except.error eNotFound) ∧
    ((fetchPools404 "q").status ≠ 200 ∧
      (ESix.pool_search fetchPools404 "q").2 = Except.error eNotFound) ∧
    (WikiQuery.truthy (WikiQuery.str "cat") = true ∧
      (fetchWiki404 (WikiQuery.str "cat")).status ≠ 200 ∧
      (ESix.wiki fetchWiki404 (WikiQuery.str "cat")).2 = Except.error eNotFound) ∧
    ((fetchPool404 3).status ≠ 200 ∧
      (ESix.pool fetchPool404 fetchEmpty200 3).2 = Except.error (CoreExc.api eNotFound)) ∧
    ((0 : Int) < 100 - 320 * ((0 : Nat) : Int) ∧
      (fetch404 (100 - 320 * ((0 : Nat) : Int)) (1 + ((0 : Nat) : Int))).status ≠ 200 ∧
      (ESix.search fetch404 ["cat"] 100 1 false [] (-10)).2 =
        Except.error (CoreExc.api eNotFound)) := by
  refine ⟨⟨by decide, ?_⟩, ⟨by decide, ?_⟩, ⟨rfl, by decide, ?_⟩, ⟨by decide, ?_⟩,
    ⟨by norm_num, by decide, ?_⟩⟩
  · exact c7_non_success_raises.1 fetchPost404 7 (by decide)
  · exact c7_non_success_raises.2.1 fetchPools404 "q" (by decide)
  · exact c7_non_success_raises.2.2.1 fetchWiki404 (WikiQuery.str "cat") rfl (by decide)
  · exact c7_non_success_raises.2.2.2.1 fetchPool404 fetchEmpty200 3 (by decide)
  · exact (c7_non_success_raises.2.2.2.2 fetch404 ["cat"] 100 1 false [] (-10) 0
      (fun j hj => absurd hj (Nat.not_lt_zero j)) (by norm_num) (by decide)).trans rfl

/-- C8: for every falsy query (`""` or `0`), `wiki` raises the locally
constructed `E621Error(False, "No Query Provided")` after only the limiter
call — its trace contains no network request. -/
theorem c8_wiki_empty_query (fetch : WikiQuery → HttpResp Wiki) (q : WikiQuery)
    (hq : q.truthy = false) :
    ESix.wiki fetch q =
      ([Ev.acquire], Except.error ⟨false, some "No Query Provided", none, ""⟩) ∧
    requestsOf (ESix.wiki fetch q).1 = [] := by
  have h : ESix.wiki fetch q =
      ([Ev.acquire], Except.error ⟨false, some "No Query Provided", none, ""⟩) := by
    unfold ESix.wiki
    rw [if_pos hq]
  refine ⟨h, ?_⟩
  rw [h]
  rfl

/-- C8, witness: the empty string query. -/
theorem c8_wiki_empty_query_witness :
    WikiQuery.truthy (WikiQuery.str "") = false ∧
    (ESix.wiki fetchWiki200 (WikiQuery.str "") =
        ([Ev.acquire], Except.error ⟨false, some "No Query Provided", none, ""⟩) ∧
      requestsOf (ESix.wiki fetchWiki200 (WikiQuery.str "")).1 = []) :=
  ⟨rfl, c8_wiki_empty_query fetchWiki200 (WikiQuery.str "") rfl⟩

/-- C9: if some accumulated post occurs exactly once, carries a blacklisted
tag and also scores at or below the threshold, the filtering loop's second
`remove` on it raises `ValueError`, so `search` raises instead of returning
a filtered sequence. -/
theorem c9_double_remove_value_error (fetch : Int → Int → HttpResp (List Post))
    (tags : List String) (L P : Int) (safe : Bool) (bl : List String) (sc : Int)
    (posts : List Post) (p : Post)
    (hok : (ESix.searchLoop fetch (if safe then "https://e926.net/" else "https://e621.net/")
        (String.intercalate " " tags) L P).2 = Except.ok posts)
    (hcount : posts.count p = 1)
    (hbl : hasBlacklisted bl p = true)
    (hsc : p.score.total ≤ sc) :
    (ESix.search fetch tags L P safe bl sc).2 = Except.error CoreExc.valueError := by
  have hmem : p ∈ posts := List.count_pos_iff.mp (by omega)
  have hnone : runFilter bl sc posts = none :=
    filterLoop_none_double hbl hsc posts posts hmem hcount le_rfl
  rw [search_result_of_loop fetch tags L P safe bl sc posts hok, hnone]

/-- C9, witness: one accumulated post tagged "gore" with total score −50
against blacklist `["gore"]` and threshold −10; the search raises. -/
theorem c9_double_remove_value_error_witness :
    (ESix.searchLoop fetchBad200 (if false then "https://e926.net/" else "https://e621.net/")
        (String.intercalate " " ["cat"]) 300 1).2 = Except.ok [doubleBadPost] ∧
    List.count doubleBadPost [doubleBadPost] = 1 ∧
    hasBlacklisted ["gore"] doubleBadPost = true ∧
    doubleBadPost.score.total ≤ -10 ∧
    (ESix.search fetchBad200 ["cat"] 300 1 false ["gore"] (-10)).2 =
      Except.error CoreExc.valueError := by
  have hl : (ESix.searchLoop fetchBad200
      (if false then "https://e926.net/" else "https://e621.net/")
      (String.intercalate " " ["cat"]) 300 1).2 = Except.ok [doubleBadPost] := by
    rw [searchLoop_one_page fetchBad200 _ _ 1 (by norm_num) (by norm_num) rfl]
    rfl
  exact ⟨hl, by decide, rfl, by decide,
    c9_double_remove_value_error fetchBad200 ["cat"] 300 1 false ["gore"] (-10)
      [doubleBadPost] doubleBadPost hl (by decide) rfl (by decide)⟩

/-- C10: a `search` call with `limit <= 0` never runs the loop body: its
trace is empty (no limiter call, no request) and it returns an empty list
of posts. -/
theorem c10_nonpositive_limit_noop (fetch : Int → Int → HttpResp (List Post))
    (tags : List String) (L P : Int) (safe : Bool) (bl : List String) (sc : Int)
    (h : L ≤ 0) :
    ESix.search fetch tags L P safe bl sc = ([], Except.ok []) := by
  rw [search_eq, searchLoop_nonpos fetch _ _ P h]
  rfl

/-- C10, witness: a concrete `limit = 0` call. -/
theorem c10_nonpositive_limit_noop_witness :
    (0 : Int) ≤ 0 ∧
    ESix.search fetchEmpty200 [] 0 1 false [] (-10) = ([], Except.ok []) :=
  ⟨le_rfl, c10_nonpositive_limit_noop fetchEmpty200 [] 0 1 false [] (-10) le_rfl⟩

end E621
